import Mathlib

/-!
Verification of the image-reference resolution engine and the build-to-export
streaming pipeline of a container-image build daemon.

The Go sources are shallowly embedded below.  External collaborators
(the containers/image reference parser, the local image store, the registry
configuration provider, the copy engine) are modelled as explicit oracle
parameters; everything written by the repository itself is translated
function by function.  Go byte strings are modelled as Lean `String`s
(UTF-8 positions coincide with character positions on the ASCII separators
used by the code).  All helper string functions are implemented by
structural recursion over `String.data` so that concrete instances can be
evaluated by `decide` / `rfl`.
-/

/-- Transport identifier `constant.DockerTransport` ("docker"). -/
def DockerTransport : String := "docker"

/-- Transport identifier `constant.DockerArchiveTransport` ("docker-archive"). -/
def DockerArchiveTransport : String := "docker-archive"

/-- Transport identifier `constant.OCIArchiveTransport` ("oci-archive"). -/
def OCIArchiveTransport : String := "oci-archive"

/-- Default image tag `constant.DefaultTag` ("latest"). -/
def DefaultTag : String := "latest"

/-- `hasPfx p s` models Go `strings.HasPrefix(s, p)` at character level. -/
def hasPfx : List Char → List Char → Bool
  | [], _ => true
  | _ :: _, [] => false
  | p :: ps, c :: cs => p == c && hasPfx ps cs

/-- Go `strings.TrimPrefix(s, pre)`: drop `pre` when it is a leading part of `s`. -/
def trimPfx (s pre : String) : String :=
  if hasPfx pre.data s.data then String.mk (s.data.drop pre.data.length) else s

/-- ASCII white space, the fragment of `unicode.IsSpace` exercised here. -/
def isSpaceChar (c : Char) : Bool :=
  c == ' ' || c == '\t' || c == '\n' || c == '\r'

/-- Go `strings.TrimSpace` (restricted to ASCII white space). -/
def goTrimSpace (s : String) : String :=
  String.mk (((s.data.dropWhile isSpaceChar).reverse.dropWhile isSpaceChar).reverse)

/-- Go `strings.ContainsRune(s, c)`. -/
def containsChar (s : String) (c : Char) : Bool :=
  s.data.contains c

/-- Split a character list at its first `':'`: returns the part before it and,
when a colon exists, the remainder after it.  This is the character-level
core of Go `strings.SplitN(s, ":", 2)`. -/
def splitFirstColon : List Char → List Char × Option (List Char)
  | [] => ([], none)
  | c :: cs =>
    if c = ':' then ([], some cs)
    else (c :: (splitFirstColon cs).1, (splitFirstColon cs).2)

/-- Go `strings.SplitN(name, ":", 2)`. -/
def goSplitN2 (name : String) : List String :=
  match splitFirstColon name.data with
  | (_, none) => [name]
  | (p, some r) => [String.mk p, String.mk r]

/-- Join path components with `'/'` (no cleaning); helper for `pathClean`. -/
def joinSlash : List (List Char) → List Char
  | [] => []
  | [c] => c
  | c :: cs => c ++ '/' :: joinSlash cs

/-- Split a character list on `'/'` into its components. -/
def splitSlash : List Char → List (List Char)
  | [] => [[]]
  | c :: cs =>
    if c = '/' then [] :: splitSlash cs
    else
      match splitSlash cs with
      | [] => [[c]]
      | h :: t => (c :: h) :: t

/-- One step of Go `path.Clean`'s component scan: skip empty and `"."`
components, let `".."` backtrack (except past the root, or at the head of a
relative path). -/
def cleanStep (rooted : Bool) (acc : List (List Char)) (c : List Char) : List (List Char) :=
  if c = [] ∨ c = ['.'] then acc
  else if c = ['.', '.'] then
    match acc with
    | [] => if rooted then [] else [['.', '.']]
    | h :: t => if h = ['.', '.'] then c :: acc else t
  else c :: acc

/-- Go `path.Clean` for slash-separated paths. -/
def pathClean (p : String) : String :=
  match p.data with
  | [] => "."
  | c :: cs =>
    let rooted := c == '/'
    let out := ((splitSlash (c :: cs)).foldl (cleanStep rooted) []).reverse
    let s := joinSlash out
    if rooted then String.mk ('/' :: s)
    else if s = [] then "." else String.mk s

/-- Go `path.Join`.  Go concatenates the elements with `'/'` separators
(skipping leading empty elements; an interior empty element contributes an
empty component, which `path.Clean` then removes) and cleans the result; an
all-empty input yields `""`.  Filtering every empty element before the join
produces the identical cleaned path. -/
def pathJoin (elems : List String) : String :=
  match elems.filter (fun e => e ≠ "") with
  | [] => ""
  | ne => pathClean (String.mk (joinSlash (ne.map String.data)))

example : pathClean "a//b/./c/.." = "a/b" := by decide
example : pathJoin ["localhost", "", "img"] = "localhost/img" := by decide
example : pathJoin ["docker.io", "library", "app"] = "docker.io/library/app" := by decide
example : goSplitN2 "docker://x" = ["docker", "//x"] := by decide
example : trimPfx "//reg.io/a" "//" = "reg.io/a" := by decide

/-!
## Image-reference resolution engine (package `image`, `src/unnamed/part_000`)
-/

/-- The local image store `store.Store`, as consumed by resolution:
`store.Image(key)` either succeeds with an image whose `ID` is returned, or
fails.  Modelled as a lookup function from keys to optional image IDs. -/
def Store : Type := String → Option String

/-- `tryResolveNameInStore` (part_000:524-538): try `name:latest`, then the
bare `name`, against the local store; return the image ID of the first hit,
or `""` when both lookups fail. -/
def tryResolveNameInStore (st : Store) (name : String) : String :=
  match st (name ++ ":" ++ DefaultTag) with
  | some id => id
  | none =>
    match st name with
    | some id => id
    | none => ""

/-- `transports.Get` restricted to the three transport names that the switch
in `tryResolveNameWithTransport` distinguishes.  Every other registered
transport falls through that switch to the `("", "")` result exactly as an
unknown name does, so they need not be distinguished here. -/
def transportsGet (s : String) : Option String :=
  if s = DockerTransport ∨ s = DockerArchiveTransport ∨ s = OCIArchiveTransport then
    some s
  else none

/-- `tryResolveNameWithTransport` (part_000:540-557): split the name at the
first colon; when the part before it names a known transport, strip the
transport (and a leading `//` for `docker`, surrounding space for the
archive transports) and return the destination with the transport name. -/
def tryResolveNameWithTransport (name : String) : String × String :=
  match goSplitN2 name with
  | [p, rest] =>
    match transportsGet p with
    | some t =>
      if t = DockerTransport then (trimPfx rest "//", t)
      else if t = DockerArchiveTransport ∨ t = OCIArchiveTransport then (goTrimSpace rest, t)
      else ("", "")
    | none => ("", "")
  | _ => ("", "")

/-- The view of a parsed `reference.Named` used by
`tryResolveNameWithDockerReference`: its `String()` form, `Domain`, `Path`,
and optional tag and digest. -/
structure NamedRef where
  str : String
  domain : String
  path : String
  tag : Option String
  digest : Option String
deriving DecidableEq

/-- Errors produced by the embedded functions.  Each constructor records the
data interpolated into the corresponding Go error message. -/
inductive BuildErr where
  /-- `errors.Wrapf(err, "error parsing image name %q", name)` in
  `tryResolveNameWithDockerReference`. -/
  | parseName (name : String) (e : String)
  /-- `errors.Wrapf(err, "error parsing reference to image %q", FromImage)`
  in `PullAndGetImageInfo`. -/
  | parseRef (image : String) (e : BuildErr)
  /-- `errors.New("transport is empty and multi or no image be found")`. -/
  | emptyTransportAmbiguous
  /-- `errors.Wrapf(err, "parse image %q failed", image)` in `FindImage`. -/
  | parseImageFailed (image : String) (e : String)
  /-- `errors.Errorf("image %q not found in local store", image)` in `FindImage`. -/
  | notFoundInStore (image : String)
  /-- `errors.Wrapf(err, "error parsing reference to image %q", localName)` in `FindImage`. -/
  | parseStoreRefFailed (name : String) (e : String)
  /-- `errors.Wrapf(err, "failed to parse image %q in local store", localName)` in `FindImage`. -/
  | getStoreImageFailed (name : String) (e : String)
  /-- `errors.Errorf("failed to get the image in %#v: %v", candidates, errPull)`:
  the aggregated failure after the candidate loop is exhausted; `last` is the
  retained last pull error (`none` models a nil `errPull`). -/
  | pullExhausted (candidates : List String) (last : Option String)
deriving DecidableEq

/-- `tryResolveNameWithDockerReference` (part_000:559-587).  The external
parser `reference.ParseNormalizedNamed` is the `parseNormalized` oracle; the
external map `util.DefaultRegistryPathPrefix` is the `pm` oracle. -/
def tryResolveNameWithDockerReference (parseNormalized : String → Except String NamedRef)
    (pm : String → Option String) (name : String) : Except BuildErr (String × String) :=
  match parseNormalized name with
  | .error e => .error (.parseName name e)
  | .ok named =>
    if named.str = name then .ok (name, DockerTransport)
    else
      match pm named.domain with
      | some pfx =>
        let tag := match named.tag with | some t => ":" ++ t | none => ""
        let dig := match named.digest with | some d => "@" ++ d | none => ""
        let defaultPfx := pfx ++ "/"
        if hasPfx defaultPfx.data named.path.data ∧
            pathJoin [named.domain, String.mk (named.path.data.drop defaultPfx.data.length)]
              ++ tag ++ dig = name then
          .ok (name, DockerTransport)
        else .ok ("", "")
      | none => .ok ("", "")

/-- Result of `sysregistriesv2.FindRegistry` for one registry host. -/
inductive FindRegResult where
  | err
  | notFound
  | found (blocked : Bool)
deriving DecidableEq

/-- The registry configuration provider (`sysregistriesv2` on a
`types.SystemContext`): the ordered unqualified-search registry list (with
`searchErr` modelling a failure of `UnqualifiedSearchRegistries`, which the
code treats as an empty list) and the per-registry `FindRegistry` outcome. -/
structure RegistryConf where
  searchErr : Bool
  search : List String
  find : String → FindRegResult

/-- The keep condition of the first loop of `tryResolveNameInRegistries`
(part_000:597-606): a registry is kept unless `FindRegistry` failed
(`continue`) or it is configured and blocked. -/
def keepRegB (sc : RegistryConf) (r : String) : Bool :=
  match sc.find r with
  | .err => false
  | .notFound => true
  | .found b => !b

/-- Whether a registry is configured and marked blocked. -/
def blockedB (sc : RegistryConf) (r : String) : Bool :=
  match sc.find r with
  | .found b => b
  | _ => false

/-- The filtered registry list built by the first loop of
`tryResolveNameInRegistries`. -/
def registriesFromConf (sc : RegistryConf) : List String :=
  (if sc.searchErr then [] else sc.search).filter (keepRegB sc)

/-- The candidate built for one registry in the second loop of
`tryResolveNameInRegistries` (part_000:610-619): the default path prefix for
the registry is inserted as the middle component only when the name contains
no `'/'`. -/
def registryCandidate (pm : String → Option String) (name registry : String) : String :=
  let middle :=
    match pm registry with
    | some pfx => if containsChar name '/' then "" else pfx
    | none => ""
  pathJoin [registry, middle, name]

/-- `tryResolveNameInRegistries` (part_000:589-622): `localhost` is put in
front of the configured, kept registries, empty registry names are skipped,
and each remaining registry contributes one candidate; the transport is
always `docker`. -/
def tryResolveNameInRegistries (pm : String → Option String) (sc : RegistryConf)
    (name : String) : List String × String :=
  let registries := registriesFromConf sc
  let candidates := ("localhost" :: registries).filterMap fun registry =>
    if registry = "" then none else some (registryCandidate pm name registry)
  (candidates, DockerTransport)

/-- `ResolveName` (part_000:491-522): the layered resolution algorithm —
empty name, local store, transport-qualified form, normalized docker
reference (whose parse failure is returned at once), registry search. -/
def ResolveName (parseNormalized : String → Except String NamedRef) (st : Store)
    (pm : String → Option String) (sc : RegistryConf) (name : String) :
    Except BuildErr (List String × String) :=
  if name = "" then .ok ([], "")
  else if tryResolveNameInStore st name ≠ "" then
    .ok ([tryResolveNameInStore st name], "")
  else if (tryResolveNameWithTransport name).1 ≠ "" ∧
      (tryResolveNameWithTransport name).2 ≠ "" then
    .ok ([(tryResolveNameWithTransport name).1], (tryResolveNameWithTransport name).2)
  else
    match tryResolveNameWithDockerReference parseNormalized pm name with
    | .error e => .error e
    | .ok dt2 =>
      if dt2.1 ≠ "" ∧ dt2.2 ≠ "" then .ok ([dt2.1], dt2.2)
      else .ok (tryResolveNameInRegistries pm sc name)

/-!
## Image resolution orchestrator (`PullAndGetImageInfo`, `FindImage`)
-/

/-- Oracles for the external operations used by `FindImage`,
`PullAndGetImageInfo` and `pullImage`.  Image references and store images
are represented by their string form / image ID. -/
structure ImgEnv where
  /-- `reference.Parse` validity check: `some e` is a parse error `e`. -/
  refParse : String → Option String
  /-- `reference.ParseNormalizedNamed`. -/
  parseNormalized : String → Except String NamedRef
  /-- `alltransports.ParseImageName`, yielding a source reference. -/
  parseImageName : String → Except String String
  /-- `getLocalImageNameFromRef` (part_000:253-274): derives the local name
  from a docker-transport source reference.  It only inspects the external
  `types.ImageReference` value, so it is kept as an oracle over the
  reference representation. -/
  localNameFromRef : String → Except String String
  /-- `is.Transport.ParseStoreReference`. -/
  parseStoreReference : String → Except String String
  /-- `is.Transport.GetStoreImage` on the store state before any pull. -/
  getStoreImage : String → Except String String
  /-- `pullImage` (part_000:88-117): the copy of `srcRef` to `destRef`;
  `some e` is a failure.  On success the Go function returns `opt.dstRef`,
  so the pulled reference is the destination reference itself. -/
  pull : String → String → Option String
  /-- `is.Transport.GetStoreImage` on the store state after a successful
  pull of the given reference. -/
  getPulledImage : String → Except String String

/-- `FindImage` (part_000:463-487): validate the name, find it in the local
store, then build the store reference and storage image. -/
def FindImage (env : ImgEnv) (st : Store) (image : String) :
    Except BuildErr (String × String) :=
  match env.refParse image with
  | some e => .error (.parseImageFailed image e)
  | none =>
    if tryResolveNameInStore st image = "" then .error (.notFoundInStore image)
    else
      match env.parseStoreReference (tryResolveNameInStore st image) with
      | .error e => .error (.parseStoreRefFailed (tryResolveNameInStore st image) e)
      | .ok ref =>
        match env.getStoreImage ref with
        | .error e => .error (.getStoreImageFailed (tryResolveNameInStore st image) e)
        | .ok img => .ok (ref, img)

/-- Modelled from the spec: `exporter.FormatTransport` (its defining file is
not under `src/`; the tests in `src/unnamed/part_002` fix
`FormatTransport(docker, p) = "docker://" ++ p` and
`FormatTransport(oci-archive, p) = "oci-archive:" ++ p`): the docker
transport uses the `transport://path` form, archives use `transport:path`. -/
def FormatTransport (transport path : String) : String :=
  if transport = DockerTransport then transport ++ "://" ++ path
  else transport ++ ":" ++ path

/-- Outcome of one iteration of the candidate loop in
`PullAndGetImageInfo`: return a hit, `continue` without touching `errPull`,
or `continue` after recording a pull error into `errPull`. -/
inductive TryResult where
  | hit (ref img : String)
  | skip
  | failed (e : String)
deriving DecidableEq

/-- Whether a `TryResult` lets the loop continue. -/
def TryResult.isMiss : TryResult → Bool
  | .hit _ _ => false
  | _ => true

/-- The tail of one candidate-loop iteration (part_000:176-208), after the
source reference and destination image name are known: parse the store
reference (`continue` on failure), return at once when the image is already
in the local store, otherwise pull and look the pulled image up (either
failure is recorded in `errPull`). -/
def tryCandidateTail (env : ImgEnv) (srcRef destImage : String) : TryResult :=
  match env.parseStoreReference destImage with
  | .error _ => .skip
  | .ok destRef =>
    match env.getStoreImage destRef with
    | .ok img => .hit destRef img
    | .error _ =>
      match env.pull srcRef destRef with
      | some e => .failed e
      | none =>
        match env.getPulledImage destRef with
        | .error e => .failed e
        | .ok img => .hit destRef img

/-- One full candidate-loop iteration (part_000:145-208), including the
transport switch: `docker-archive` appends the manifest-index selector
`:@idx` before parsing, `oci-archive` parses the formatted name directly,
and the default (docker) branch derives the local destination name from the
parsed source reference.  Parse failures `continue` without recording. -/
def tryCandidate (env : ImgEnv) (transport toImage : String) (manifestIndex : Nat)
    (strImage : String) : TryResult :=
  if transport = DockerArchiveTransport then
    match env.parseImageName (FormatTransport transport strImage ++ ":@" ++ toString manifestIndex) with
    | .error _ => .skip
    | .ok srcRef => tryCandidateTail env srcRef toImage
  else if transport = OCIArchiveTransport then
    match env.parseImageName (FormatTransport transport strImage) with
    | .error _ => .skip
    | .ok srcRef => tryCandidateTail env srcRef toImage
  else
    match env.parseImageName (FormatTransport transport strImage) with
    | .error _ => .skip
    | .ok srcRef =>
      match env.localNameFromRef srcRef with
      | .error _ => .skip
      | .ok destImage => tryCandidateTail env srcRef destImage

/-- The candidate loop of `PullAndGetImageInfo` (part_000:144-211): iterate
the candidates in order threading `errPull`; when the list is exhausted,
report the aggregated error naming the full candidate list and the retained
last pull error. -/
def pullCandidatesLoop (env : ImgEnv) (transport toImage : String) (manifestIndex : Nat)
    (all : List String) : List String → Option String → Except BuildErr (String × String)
  | [], errPull => .error (.pullExhausted all errPull)
  | c :: cs, errPull =>
    match tryCandidate env transport toImage manifestIndex c with
    | .hit r i => .ok (r, i)
    | .skip => pullCandidatesLoop env transport toImage manifestIndex all cs errPull
    | .failed e => pullCandidatesLoop env transport toImage manifestIndex all cs (some e)

/-- The value held by `errPull` after the loop has traversed `l` starting
from `acc`: the error of the last candidate whose iteration recorded one. -/
def lastPullErr (env : ImgEnv) (transport toImage : String) (manifestIndex : Nat) :
    List String → Option String → Option String
  | [], acc => acc
  | c :: cs, acc =>
    lastPullErr env transport toImage manifestIndex cs
      (match tryCandidate env transport toImage manifestIndex c with
        | .failed e => some e
        | _ => acc)

/-- The part of `PullAndGetImageInfo` (part_000:127-211) after resolution:
an empty transport requires exactly one candidate, which is looked up with
`FindImage`; otherwise the candidate loop runs. -/
def pullAndGetFromResolved (env : ImgEnv) (st : Store) (toImage : String)
    (manifestIndex : Nat) (candidates : List String) (transport : String) :
    Except BuildErr (String × String) :=
  if transport = "" then
    if candidates.length ≠ 1 then .error .emptyTransportAmbiguous
    else FindImage env st (candidates.headD "")
  else pullCandidatesLoop env transport toImage manifestIndex candidates candidates none

/-- `PullAndGetImageInfo` (part_000:120-212): resolve the name (wrapping a
resolution error), then dispatch on the transport. -/
def PullAndGetImageInfo (env : ImgEnv) (st : Store) (pm : String → Option String)
    (sc : RegistryConf) (fromImage toImage : String) (manifestIndex : Nat) :
    Except BuildErr (String × String) :=
  match ResolveName env.parseNormalized st pm sc fromImage with
  | .error e => .error (.parseRef fromImage e)
  | .ok ct => pullAndGetFromResolved env st toImage manifestIndex ct.1 ct.2

/-!
## Export stream bridge and build supervisor
(`PipeWrapper` in `src/exporter/common.go`, `Backend.Build` in
`src/unnamed/part_000`, daemon part)
-/

/-- `exporter.PipeWrapper` (common.go:176-181): the pipe file path, the done
flag, and the (unused on these paths) error field. -/
structure PipeWrapper where
  PipeFile : String
  Done : Bool
  Err : Option String
deriving DecidableEq

/-- `PipeWrapper.Close` (common.go:184-186): set the done flag. -/
def PipeWrapper.Close (p : PipeWrapper) : PipeWrapper :=
  { p with Done := true }

/-- The observable outcome of the producer goroutine's failure handling. -/
structure ProducerOut where
  /-- The pipe wrapper's state when the goroutine returns. -/
  pipe : Option PipeWrapper
  /-- The payloads written into the pipe file, in order. -/
  pipeFileWrites : List String
  /-- The error the goroutine returns into the errgroup. -/
  ret : Option String
deriving DecidableEq

/-- The tail of the producer goroutine of `Backend.Build` (part_000:710-723):
after `builder.Build()` returns `berr`, when `berr` is non-nil and the
archive pipe wrapper exists, mark the wrapper done via `Close` and write the
error text into the pipe file, then return `berr`. -/
def producerFinish (pipe : Option PipeWrapper) (berr : Option String) : ProducerOut :=
  match berr, pipe with
  | some e, some p => { pipe := some p.Close, pipeFileWrites := [e], ret := some e }
  | some e, none => { pipe := none, pipeFileWrites := [], ret := some e }
  | none, p => { pipe := p, pipeFileWrites := [], ret := none }

/-- One read result delivered to the bridge-reader loop: a data chunk
(`rerr == nil`), end of stream (`rerr == io.EOF`), or a read error. -/
inductive ReadEv where
  | chunk (data : String)
  | eof
  | rerr (e : String)
deriving DecidableEq

/-- How the bridge-reader loop ends. -/
inductive LoopExit where
  /-- The event trace was exhausted without the loop stopping: the reader is
  still blocked in `reader.Read`. -/
  | pending
  /-- `break`: the goroutine returns nil. -/
  | brk
  /-- `return rerr`. -/
  | readErr (e : String)
  /-- `return serr` from `stream.Send`. -/
  | sendErr (e : String)
deriving DecidableEq

/-- The bridge-reader loop of `Backend.Build` (part_000:740-754), run
against a trace of read results paired with the value of
`pipeWrapper.Done` observed at that iteration's check: break on `io.EOF` or
on the done flag, return a non-EOF read error, otherwise forward the chunk
to the client stream (returning a send error).  Returns the chunks
forwarded, in order, and how the loop ended. -/
def bridgeLoop (send : String → Option String) :
    List (ReadEv × Bool) → List String × LoopExit
  | [] => ([], .pending)
  | (ev, done) :: rest =>
    match ev with
    | .eof => ([], .brk)
    | .chunk data =>
      if done then ([], .brk)
      else
        match send data with
        | some serr => ([], .sendErr serr)
        | none =>
          ((bridgeLoop send rest).1.cons data, (bridgeLoop send rest).2)
    | .rerr e => if done then ([], .brk) else ([], .readErr e)

/-- An event at which the loop's stopping condition fires: end of stream, an
observed done flag, or a read error. -/
def stopsB : ReadEv × Bool → Bool
  | (ev, done) => done || (match ev with | .chunk _ => false | _ => true)

/-- The chunk payload of an event, when it carries one. -/
def chunkOf : ReadEv × Bool → Option String
  | (.chunk data, _) => some data
  | _ => none

/-- An event whose chunk the loop forwards when the send succeeds: a data
chunk read while the done flag was still unset. -/
def fwdB : ReadEv × Bool → Bool
  | (.chunk _, done) => !done
  | _ => false

/-- The two events the supervisor `select` of `Backend.Build`
(part_000:763-781) can wake on: the errgroup finished with `chErr`, or the
client stream's context was cancelled with cause `ctxErr`. -/
inductive SupEvent where
  | groupDone (chErr : Option String)
  | streamDone (ctxErr : Option String)
deriving DecidableEq

/-- The observable outcome of the supervisor `select`. -/
structure SupOut where
  /-- The error `Backend.Build` returns (none = nil). -/
  ret : Option String
  /-- Whether the "Stream closed with" warning was logged. -/
  warnedCancel : Bool
  /-- Whether the final image-id message was sent successfully. -/
  sentImageID : Bool
deriving DecidableEq

/-- The string form of `context.Canceled`. -/
def contextCanceled : String := "context canceled"

/-- The supervisor `select` of `Backend.Build` (part_000:763-784).  On
errgroup completion, a non-nil group error is returned, otherwise the final
image-id message is sent (returning its send error when that fails).  On
stream cancellation, a cause other than `context.Canceled` is logged as a
warning; the branch falls through to `return nil` — no error is returned
and no kill of the build task is issued. -/
def supervisorSelect (imageSendErr : Option String) (ev : SupEvent) : SupOut :=
  match ev with
  | .groupDone chErr =>
    match chErr with
    | some e => { ret := some e, warnedCancel := false, sentImageID := false }
    | none =>
      match imageSendErr with
      | some serr => { ret := some serr, warnedCancel := false, sentImageID := false }
      | none => { ret := none, warnedCancel := false, sentImageID := true }
  | .streamDone ctxErr =>
    match ctxErr with
    | some e =>
      { ret := none, warnedCancel := if e = contextCanceled then false else true,
        sentImageID := false }
    | none => { ret := none, warnedCancel := false, sentImageID := false }

/-!
## Bridge-reader loop lemmas
-/

/-- If some event of the trace fires the stopping condition, the loop does
not run off the end of the trace: the reader is not left blocked. -/
theorem bridgeLoop_exit_of_stop (send : String → Option String) :
    ∀ trace : List (ReadEv × Bool), trace.any stopsB = true →
      (bridgeLoop send trace).2 ≠ LoopExit.pending := by
  intro trace
  induction trace with
  | nil => intro h; simp at h
  | cons p rest ih =>
    intro h
    obtain ⟨ev, done⟩ := p
    cases ev with
    | eof => simp [bridgeLoop]
    | chunk data =>
      cases hd : done with
      | true => simp [bridgeLoop, hd]
      | false =>
        cases hs : send data with
        | some serr => simp [bridgeLoop, hd, hs]
        | none =>
          have hrest : rest.any stopsB = true := by
            rw [hd] at h
            have hsb : stopsB (ReadEv.chunk data, false) = false := rfl
            rw [List.any_cons, hsb, Bool.false_or] at h
            exact h
          simpa [bridgeLoop, hd, hs] using ih hrest
    | rerr e =>
      cases hd : done with
      | true => simp [bridgeLoop, hd]
      | false => simp [bridgeLoop, hd]

/-- Whatever the trace and the send outcomes, the forwarded chunks are an
initial segment of the chunks appearing in the trace. -/
theorem bridgeLoop_forwards_take (send : String → Option String) :
    ∀ trace : List (ReadEv × Bool),
      ∃ m, (bridgeLoop send trace).1 = (trace.filterMap chunkOf).take m := by
  intro trace
  induction trace with
  | nil => exact ⟨0, rfl⟩
  | cons p rest ih =>
    obtain ⟨ev, done⟩ := p
    cases ev with
    | eof => exact ⟨0, by simp [bridgeLoop]⟩
    | chunk data =>
      cases hd : done with
      | true => exact ⟨0, by simp [bridgeLoop, hd]⟩
      | false =>
        cases hs : send data with
        | some serr => exact ⟨0, by simp [bridgeLoop, hd, hs]⟩
        | none =>
          obtain ⟨m, hm⟩ := ih
          exact ⟨m + 1, by simp [bridgeLoop, hd, hs, chunkOf, hm]⟩
    | rerr e =>
      cases hd : done with
      | true => exact ⟨0, by simp [bridgeLoop, hd]⟩
      | false => exact ⟨0, by simp [bridgeLoop, hd]⟩

/-- When every send succeeds, the loop forwards exactly the chunks it read
and checked while the done flag was still unset, in order. -/
theorem bridgeLoop_forwards_exact (send : String → Option String)
    (hsend : ∀ s, send s = none) :
    ∀ trace : List (ReadEv × Bool),
      (bridgeLoop send trace).1 = (trace.takeWhile fwdB).filterMap chunkOf := by
  intro trace
  induction trace with
  | nil => rfl
  | cons p rest ih =>
    obtain ⟨ev, done⟩ := p
    cases ev with
    | eof => simp [bridgeLoop, List.takeWhile, fwdB]
    | chunk data =>
      cases hd : done with
      | true => simp [bridgeLoop, hd, List.takeWhile, fwdB]
      | false =>
        simp [bridgeLoop, hd, hsend data, List.takeWhile, fwdB, chunkOf, ih]
    | rerr e =>
      cases hd : done with
      | true => simp [bridgeLoop, hd, List.takeWhile, fwdB]
      | false => simp [bridgeLoop, hd, List.takeWhile, fwdB]

/-!
## Claims C1, C2, C3
-/

/-- Claim C1: for every build whose producer task fails with a non-nil error
while an archive-export pipe is open, the producer marks the pipe wrapper's
done flag (via `Close`) and writes the error text into the pipe file before
returning its error, so that any subsequent read iteration of the
bridge-reader loop — whatever it reads — observes an end-of-data condition
(`break`) rather than blocking forever. -/
theorem claim_C1_producer_marks_done_and_writes_error (p : PipeWrapper) (e : String) :
    producerFinish (some p) (some e) =
      { pipe := some p.Close, pipeFileWrites := [e], ret := some e }
    ∧ p.Close.Done = true
    ∧ ∀ (send : String → Option String) (ev : ReadEv) (rest : List (ReadEv × Bool)),
        (bridgeLoop send ((ev, p.Close.Done) :: rest)).2 = LoopExit.brk := by
  refine ⟨rfl, rfl, ?_⟩
  intro send ev rest
  cases ev <;> simp [bridgeLoop, PipeWrapper.Close]

/-- Claim C2 (amended): for every run in which the producer writes its
chunks into the pipe and then fails (setting the done flag, which makes the
stopping condition fire at some event of the read trace), the bridge-reader
loop terminates without blocking and has forwarded an initial segment of the
chunks written; when every stream send succeeds it forwards exactly the
chunks it read and checked before observing the done flag (or end of
stream) — chunks still unread when the flag is observed are discarded. -/
theorem claim_C2_bridge_reader_amended (send : String → Option String)
    (trace : List (ReadEv × Bool)) :
    (trace.any stopsB = true → (bridgeLoop send trace).2 ≠ LoopExit.pending)
    ∧ (∃ m, (bridgeLoop send trace).1 = (trace.filterMap chunkOf).take m)
    ∧ ((∀ s, send s = none) →
        (bridgeLoop send trace).1 = (trace.takeWhile fwdB).filterMap chunkOf) := by
  refine ⟨fun h => bridgeLoop_exit_of_stop send trace h,
    bridgeLoop_forwards_take send trace,
    fun hsend => bridgeLoop_forwards_exact send hsend trace⟩

/-- A send oracle that never fails. -/
def sendAlwaysOk : String → Option String := fun _ => none

/-- Counterexample to claim C2 as stated: the producer wrote the two bytes
"ab" into the pipe and then failed, setting the done flag; the consumer's
next read returns those bytes but observes the done flag and breaks,
forwarding nothing — fewer than the two bytes written although no stream
send ever failed. -/
theorem claim_C2_counterexample :
    bridgeLoop sendAlwaysOk [(ReadEv.chunk "ab", true)] = ([], LoopExit.brk) := by
  rfl

/-- Witness for claim C2's theorem: a producer that wrote "aa" then "bb"
before failing, with the consumer draining both chunks before observing the
done flag at the final end-of-stream event; the loop stops and both chunks
were forwarded in order. -/
theorem claim_C2_witness :
    (bridgeLoop sendAlwaysOk
        [(ReadEv.chunk "aa", false), (ReadEv.chunk "bb", false), (ReadEv.eof, true)]).2
        ≠ LoopExit.pending
    ∧ (bridgeLoop sendAlwaysOk
        [(ReadEv.chunk "aa", false), (ReadEv.chunk "bb", false), (ReadEv.eof, true)]).1
        = ["aa", "bb"] := by
  have h := claim_C2_bridge_reader_amended sendAlwaysOk
    [(ReadEv.chunk "aa", false), (ReadEv.chunk "bb", false), (ReadEv.eof, true)]
  refine ⟨h.1 (by decide), ?_⟩
  rw [h.2.2 (fun s => rfl)]
  rfl

/-- Claim C3 (amended): on client cancellation the supervisor stops waiting
and returns nil (no error) — it does not force-kill the build task — and
the "Stream closed with" warning is logged exactly when the cancellation
cause is present and differs from `context.Canceled`. -/
theorem claim_C3_cancellation_amended (imageSendErr : Option String)
    (ctxErr : Option String) :
    (supervisorSelect imageSendErr (SupEvent.streamDone ctxErr)).ret = none
    ∧ ((supervisorSelect imageSendErr (SupEvent.streamDone ctxErr)).warnedCancel = true
        ↔ ctxErr ≠ none ∧ ctxErr ≠ some contextCanceled) := by
  cases ctxErr with
  | none => simp [supervisorSelect]
  | some e =>
    by_cases he : e = contextCanceled <;> simp [supervisorSelect, he]

/-- Counterexample to claim C3 as stated: at a cancellation whose cause is
`context.Canceled`, the supervisor returns nil — no cancellation-classified
error is returned to the caller. -/
theorem claim_C3_counterexample :
    (supervisorSelect none (SupEvent.streamDone (some contextCanceled))).ret = none := by
  rfl

/-!
## Claims C4, C8, C9
-/

/-- Claim C4: once the normalized docker-reference stage is reached (name
non-empty, no local-store hit, no transport-stage result) and the parse
fails, `ResolveName` returns the wrapped parse error; the registry-search
stage is never attempted — the result is this error for every registry
configuration and path-prefix map. -/
theorem claim_C4_parse_failure_fatal (parseNormalized : String → Except String NamedRef)
    (st : Store) (pm : String → Option String) (sc : RegistryConf) (name e : String)
    (h1 : name ≠ "")
    (h2 : tryResolveNameInStore st name = "")
    (h3 : (tryResolveNameWithTransport name).1 = "" ∨
      (tryResolveNameWithTransport name).2 = "")
    (h4 : parseNormalized name = .error e) :
    ResolveName parseNormalized st pm sc name = .error (.parseName name e) := by
  have h3' : ¬((tryResolveNameWithTransport name).1 ≠ "" ∧
      (tryResolveNameWithTransport name).2 ≠ "") := by
    rcases h3 with h | h <;> simp [h]
  rw [ResolveName, if_neg h1, h2]
  simp only [ne_eq, not_true_eq_false, if_false]
  rw [if_neg h3', tryResolveNameWithDockerReference, h4]

/-- Witness for claim C4: a name with no colon, absent from an empty store,
whose normalized parse fails, yields exactly the wrapped parse error. -/
theorem claim_C4_witness :
    ResolveName (fun _ => Except.error "invalid reference format") (fun _ => none)
        (fun _ => none) ⟨false, [], fun _ => FindRegResult.notFound⟩ "UPPER CASE" =
      Except.error (BuildErr.parseName "UPPER CASE" "invalid reference format") := by
  exact claim_C4_parse_failure_fatal _ _ _ _ _ _ (by decide) (by decide)
    (by decide) rfl

/-- Claim C8: for every non-empty name, the local-store stage first looks up
`name:latest` and then the bare name; when either lookup succeeds (with the
non-empty image ID real stores produce), `ResolveName` returns that single
ID as the only candidate with empty transport and no error, whatever the
parser, path-prefix map and registry configuration — no later stage runs. -/
theorem claim_C8_local_store_stage (parseNormalized : String → Except String NamedRef)
    (st : Store) (pm : String → Option String) (sc : RegistryConf) (name id : String)
    (h1 : name ≠ "") (h2 : id ≠ "")
    (h3 : st (name ++ ":" ++ DefaultTag) = some id ∨
      (st (name ++ ":" ++ DefaultTag) = none ∧ st name = some id)) :
    ResolveName parseNormalized st pm sc name = .ok ([id], "") := by
  have hstore : tryResolveNameInStore st name = id := by
    rcases h3 with h | ⟨ha, hb⟩
    · rw [tryResolveNameInStore, h]
    · rw [tryResolveNameInStore, ha, hb]
  rw [ResolveName, if_neg h1, hstore, if_pos h2]

/-- Witness for claim C8: a store holding `busybox:latest` resolves
`busybox` to its image ID locally, with empty transport. -/
theorem claim_C8_witness :
    ResolveName (fun _ => Except.error "unused")
        (fun s => if s = "busybox:latest" then some "id123" else none)
        (fun _ => none) ⟨false, [], fun _ => FindRegResult.notFound⟩ "busybox" =
      Except.ok (["id123"], "") := by
  exact claim_C8_local_store_stage _ _ _ _ _ _ (by decide) (by decide)
    (Or.inl (by decide))

/-- Claim C9: for every resolution result with empty transport the
orchestrator requires exactly one candidate: zero or several candidates
yield the ambiguity error — for every oracle environment and store, so no
lookup or pull is attempted — and a single candidate is looked up directly
in the local store via `FindImage`. -/
theorem claim_C9_empty_transport (env : ImgEnv) (st : Store) (toImage : String)
    (manifestIndex : Nat) :
    (∀ candidates : List String, candidates.length ≠ 1 →
      pullAndGetFromResolved env st toImage manifestIndex candidates "" =
        .error .emptyTransportAmbiguous)
    ∧ (∀ c : String,
      pullAndGetFromResolved env st toImage manifestIndex [c] "" =
        FindImage env st c) := by
  constructor
  · intro candidates hlen
    rw [pullAndGetFromResolved, if_pos rfl, if_pos hlen]
  · intro c
    rw [pullAndGetFromResolved, if_pos rfl, if_neg (by simp)]
    rfl

/-- A concrete oracle environment for witnesses: parsing succeeds
structurally, the pre-pull store lookup misses, and every pull fails with an
error naming its source reference. -/
def wEnv : ImgEnv where
  refParse := fun _ => none
  parseNormalized := fun _ => Except.error "invalid reference format"
  parseImageName := fun s => Except.ok s
  localNameFromRef := fun s => Except.ok s
  parseStoreReference := fun s => Except.ok s
  getStoreImage := fun _ => Except.error "image not known"
  pull := fun src _ => some ("pull failed for " ++ src)
  getPulledImage := fun _ => Except.error "image not known"

/-- The empty local store. -/
def wStore : Store := fun _ => none

/-- Witness for claim C9: two candidates with empty transport are rejected
as ambiguous before any lookup. -/
theorem claim_C9_witness :
    pullAndGetFromResolved wEnv wStore "dest" 0 ["a", "b"] "" =
      Except.error BuildErr.emptyTransportAmbiguous := by
  exact (claim_C9_empty_transport wEnv wStore "dest" 0).1 ["a", "b"] (by decide)

/-!
## Claim C5: the candidate loop of the orchestrator
-/

/-- When every candidate of the remaining list misses, the loop exhausts it
and reports the aggregated error: the full original candidate list plus the
last recorded pull error. -/
theorem pullCandidatesLoop_all_miss (env : ImgEnv) (transport toImage : String)
    (manifestIndex : Nat) (all : List String) :
    ∀ (l : List String) (errPull : Option String),
      (∀ c ∈ l, (tryCandidate env transport toImage manifestIndex c).isMiss = true) →
      pullCandidatesLoop env transport toImage manifestIndex all l errPull =
        .error (.pullExhausted all (lastPullErr env transport toImage manifestIndex l errPull)) := by
  intro l
  induction l with
  | nil => intro errPull _; rfl
  | cons c cs ih =>
    intro errPull hmiss
    have hc := hmiss c (List.mem_cons_self c cs)
    have hcs : ∀ c' ∈ cs, (tryCandidate env transport toImage manifestIndex c').isMiss = true :=
      fun c' hc' => hmiss c' (List.mem_cons_of_mem c hc')
    cases htc : tryCandidate env transport toImage manifestIndex c with
    | hit r i => rw [htc] at hc; simp [TryResult.isMiss] at hc
    | skip =>
      simp only [pullCandidatesLoop, htc, lastPullErr]
      exact ih errPull hcs
    | failed e =>
      simp only [pullCandidatesLoop, htc, lastPullErr]
      exact ih (some e) hcs

/-- When every candidate before `c` misses and `c`'s iteration hits, the
loop returns that hit, whatever `errPull` holds. -/
theorem pullCandidatesLoop_first_hit (env : ImgEnv) (transport toImage : String)
    (manifestIndex : Nat) (all : List String) :
    ∀ (front back : List String) (c : String) (errPull : Option String) (r img : String),
      (∀ c' ∈ front, (tryCandidate env transport toImage manifestIndex c').isMiss = true) →
      tryCandidate env transport toImage manifestIndex c = .hit r img →
      pullCandidatesLoop env transport toImage manifestIndex all (front ++ c :: back) errPull =
        .ok (r, img) := by
  intro front
  induction front with
  | nil =>
    intro back c errPull r img _ hhit
    rw [List.nil_append, pullCandidatesLoop, hhit]
  | cons f fs ih =>
    intro back c errPull r img hmiss hhit
    have hf := hmiss f (List.mem_cons_self f fs)
    have hfs : ∀ c' ∈ fs, (tryCandidate env transport toImage manifestIndex c').isMiss = true :=
      fun c' hc' => hmiss c' (List.mem_cons_of_mem f hc')
    cases htc : tryCandidate env transport toImage manifestIndex f with
    | hit r' i' => rw [htc] at hf; simp [TryResult.isMiss] at hf
    | skip =>
      rw [List.cons_append, pullCandidatesLoop, htc]
      exact ih back c errPull r img hfs hhit
    | failed e =>
      rw [List.cons_append, pullCandidatesLoop, htc]
      exact ih back c (some e) r img hfs hhit

/-- Claim C5: for a non-empty transport the orchestrator runs the candidate
loop over the resolved candidates in order: (1) it is the loop started with
no recorded error; (2) the first candidate whose iteration hits — all
earlier ones missing — is returned at once, later candidates untouched;
(3) a candidate already present in the local store returns immediately with
a result independent of the pull oracles (no pull happens); (4) when every
candidate misses, the single aggregated error lists the full candidate list
together with the retained last recorded pull error. -/
theorem claim_C5_pull_orchestrator (env : ImgEnv) (st : Store)
    (transport toImage : String) (manifestIndex : Nat) (candidates : List String)
    (htr : transport ≠ "") :
    (pullAndGetFromResolved env st toImage manifestIndex candidates transport =
      pullCandidatesLoop env transport toImage manifestIndex candidates candidates none)
    ∧ (∀ (front back : List String) (c r img : String),
        candidates = front ++ c :: back →
        (∀ c' ∈ front, (tryCandidate env transport toImage manifestIndex c').isMiss = true) →
        tryCandidate env transport toImage manifestIndex c = TryResult.hit r img →
        pullCandidatesLoop env transport toImage manifestIndex candidates candidates none =
          .ok (r, img))
    ∧ (∀ (srcRef destImage destRef img : String)
        (pullO : String → String → Option String) (pulledO : String → Except String String),
        env.parseStoreReference destImage = .ok destRef →
        env.getStoreImage destRef = .ok img →
        tryCandidateTail { env with pull := pullO, getPulledImage := pulledO } srcRef destImage =
          TryResult.hit destRef img)
    ∧ ((∀ c ∈ candidates, (tryCandidate env transport toImage manifestIndex c).isMiss = true) →
        pullCandidatesLoop env transport toImage manifestIndex candidates candidates none =
          .error (.pullExhausted candidates
            (lastPullErr env transport toImage manifestIndex candidates none))) := by
  refine ⟨?_, ?_, ?_, ?_⟩
  · rw [pullAndGetFromResolved, if_neg htr]
  · intro front back c r img hsplit hmiss hhit
    rw [hsplit]
    exact pullCandidatesLoop_first_hit env transport toImage manifestIndex
      (front ++ c :: back) front back c none r img hmiss hhit
  · intro srcRef destImage destRef img pullO pulledO hparse hget
    simp only [tryCandidateTail, hparse, hget]
  · exact pullCandidatesLoop_all_miss env transport toImage manifestIndex candidates
      candidates none

/-- Witness for claim C5: with the docker transport, candidates `c1`, `c2`
both fail to pull; the aggregated error names both candidates and retains
the error of the last one, not the first. -/
theorem claim_C5_witness :
    pullCandidatesLoop wEnv "docker" "dest" 0 ["c1", "c2"] ["c1", "c2"] none =
      Except.error (BuildErr.pullExhausted ["c1", "c2"]
        (some "pull failed for docker://c2")) := by
  have h := (claim_C5_pull_orchestrator wEnv wStore "docker" "dest" 0 ["c1", "c2"]
    (by decide)).2.2.2 (by decide)
  rw [h]
  rfl

/-!
## Claim C6: the registry-search fallback
-/

/-- Filtering with pointwise-equal predicates agrees. -/
theorem filterCongrOn {α : Type} (p q : α → Bool) :
    ∀ l : List α, (∀ x ∈ l, p x = q x) → l.filter p = l.filter q := by
  intro l
  induction l with
  | nil => intro _; rfl
  | cons a l ih =>
    intro h
    have ha := h a (List.mem_cons_self a l)
    have hl := ih fun x hx => h x (List.mem_cons_of_mem a hx)
    simp only [List.filter_cons, ha, hl]

/-- A `filterMap` that never drops a member is the corresponding `map`. -/
theorem filterMapAllSome {α β : Type} (f : α → Option β) (g : α → β) :
    ∀ l : List α, (∀ x ∈ l, f x = some (g x)) → l.filterMap f = l.map g := by
  intro l
  induction l with
  | nil => intro _; rfl
  | cons a l ih =>
    intro h
    have ha := h a (List.mem_cons_self a l)
    have hl := ih fun x hx => h x (List.mem_cons_of_mem a hx)
    simp only [List.filterMap_cons, ha, List.map_cons, hl]

/-- Claim C6: for every name, path-prefix map and registry configuration
(well-formed: the search list is readable, and its registries have readable
configurations and non-empty names, as the registry-configuration interface
provides), the fallback emits the `localhost` candidate first regardless of
the configured order, excludes exactly the registries marked blocked, keeps
the remaining configured registries in their configured order, and tags the
result with the docker transport. -/
theorem claim_C6_registry_fallback (pm : String → Option String) (sc : RegistryConf)
    (name : String) (hread : sc.searchErr = false)
    (hwf : ∀ r ∈ sc.search, sc.find r ≠ FindRegResult.err ∧ r ≠ "") :
    tryResolveNameInRegistries pm sc name =
      (registryCandidate pm name "localhost" ::
        (sc.search.filter fun r => !blockedB sc r).map (registryCandidate pm name),
       DockerTransport) := by
  have hkeep : sc.search.filter (keepRegB sc) = sc.search.filter fun r => !blockedB sc r := by
    refine filterCongrOn _ _ sc.search fun r hr => ?_
    have hne := (hwf r hr).1
    rw [keepRegB, blockedB]
    cases hfr : sc.find r with
    | err => exact absurd hfr hne
    | notFound => rfl
    | found b => rfl
  have hreg : registriesFromConf sc = sc.search.filter fun r => !blockedB sc r := by
    rw [registriesFromConf, hread]
    exact hkeep
  have hmem : ∀ r ∈ sc.search.filter (fun r => !blockedB sc r), r ≠ "" :=
    fun r hr => (hwf r (List.mem_of_mem_filter hr)).2
  rw [tryResolveNameInRegistries]
  simp only [hreg]
  rw [List.filterMap_cons_some
    (by rw [if_neg (by decide : ¬("localhost" : String) = "")])]
  rw [filterMapAllSome _ (registryCandidate pm name) _
    (fun r hr => by rw [if_neg (hmem r hr)])]

/-- A path-prefix map holding the usual `docker.io -> library` entry. -/
def wPm : String → Option String := fun r => if r = "docker.io" then some "library" else none

/-- A registry configuration whose search order is `reg.b`, `docker.io`,
`bad.reg`, the last one blocked. -/
def wConf : RegistryConf where
  searchErr := false
  search := ["reg.b", "docker.io", "bad.reg"]
  find := fun r =>
    if r = "bad.reg" then FindRegResult.found true
    else if r = "reg.b" then FindRegResult.found false
    else FindRegResult.notFound

/-- Witness for claim C6: `localhost` leads, the blocked registry is gone,
the rest keep their configured order, and `docker.io` gets its path prefix
for the slash-free name. -/
theorem claim_C6_witness :
    tryResolveNameInRegistries wPm wConf "app" =
      (["localhost/app", "reg.b/app", "docker.io/library/app"], "docker") := by
  rw [claim_C6_registry_fallback wPm wConf "app" rfl (by decide)]
  rfl

/-!
## Claim C7: transport-qualified names
-/

/-- Splitting at the first colon of `l ++ ':' :: r` returns `(l, some r)`
when `l` itself is colon-free. -/
theorem splitFirstColon_append (r : List Char) :
    ∀ l : List Char, ':' ∉ l → splitFirstColon (l ++ ':' :: r) = (l, some r) := by
  intro l
  induction l with
  | nil => intro _; simp [splitFirstColon]
  | cons c cs ih =>
    intro h
    have hc : ¬(c = ':') := fun hc => h (hc ▸ List.mem_cons_self c cs)
    have hcs : ':' ∉ cs := fun hmem => h (List.mem_cons_of_mem c hmem)
    rw [List.cons_append, splitFirstColon, if_neg hc, ih hcs]

/-- Go's `SplitN(t ++ ":" ++ rest, ":", 2)` recovers `[t, rest]` for a
colon-free `t`. -/
theorem goSplitN2_append (t rest : String) (h : ':' ∉ t.data) :
    goSplitN2 (t ++ ":" ++ rest) = [t, rest] := by
  have hdata : (t ++ ":" ++ rest).data = t.data ++ ':' :: rest.data := by
    rw [String.data_append, String.data_append, List.append_assoc]
    rfl
  rw [goSplitN2, hdata, splitFirstColon_append rest.data t.data h]

/-- A transport-qualified name is never the empty string. -/
theorem append_colon_ne_empty (t rest : String) : t ++ ":" ++ rest ≠ "" := by
  intro h
  have hdata : (t ++ ":" ++ rest).data = ([] : List Char) := by rw [h]
  rw [String.data_append, String.data_append] at hdata
  simp at hdata

/-- The transport stage of `ResolveName`: a non-empty destination and
transport short-circuit resolution with exactly that single candidate. -/
theorem resolveName_transport_stage (parseNormalized : String → Except String NamedRef)
    (st : Store) (pm : String → Option String) (sc : RegistryConf) (name d t : String)
    (hname : name ≠ "") (hstore : tryResolveNameInStore st name = "")
    (htrans : tryResolveNameWithTransport name = (d, t)) (hd : d ≠ "") (ht : t ≠ "") :
    ResolveName parseNormalized st pm sc name = .ok ([d], t) := by
  rw [ResolveName, if_neg hname, hstore]
  simp only [ne_eq, not_true_eq_false, if_false]
  rw [htrans]
  simp only [ne_eq]
  rw [if_pos ⟨hd, ht⟩]

/-- Claim C7 (amended): for every name `t ++ ":" ++ rest` with `t` one of
the three transports, no local-store hit, and a non-empty stripped
destination (`rest` after trimming a leading `//` for docker, after
trimming surrounding space for the archive transports), `ResolveName`
returns exactly that one candidate tagged with the transport.  (When the
stripped destination is empty, resolution falls through to the
docker-reference stage instead — see the counterexample.) -/
theorem claim_C7_transport_amended (parseNormalized : String → Except String NamedRef)
    (st : Store) (pm : String → Option String) (sc : RegistryConf) (t rest : String)
    (ht : t = DockerTransport ∨ t = DockerArchiveTransport ∨ t = OCIArchiveTransport)
    (hstore : tryResolveNameInStore st (t ++ ":" ++ rest) = "")
    (hne : (if t = DockerTransport then trimPfx rest "//" else goTrimSpace rest) ≠ "") :
    ResolveName parseNormalized st pm sc (t ++ ":" ++ rest) =
      .ok ([if t = DockerTransport then trimPfx rest "//" else goTrimSpace rest], t) := by
  rcases ht with rfl | rfl | rfl
  · rw [if_pos rfl] at hne ⊢
    refine resolveName_transport_stage _ _ _ _ _ _ _
      (append_colon_ne_empty _ _) hstore ?_ hne (by decide)
    rw [tryResolveNameWithTransport,
      goSplitN2_append DockerTransport rest (by decide)]
    rfl
  · rw [if_neg (by decide)] at hne ⊢
    refine resolveName_transport_stage _ _ _ _ _ _ _
      (append_colon_ne_empty _ _) hstore ?_ hne (by decide)
    rw [tryResolveNameWithTransport,
      goSplitN2_append DockerArchiveTransport rest (by decide)]
    rfl
  · rw [if_neg (by decide)] at hne ⊢
    refine resolveName_transport_stage _ _ _ _ _ _ _
      (append_colon_ne_empty _ _) hstore ?_ hne (by decide)
    rw [tryResolveNameWithTransport,
      goSplitN2_append OCIArchiveTransport rest (by decide)]
    rfl

/-- Counterexample to claim C7 as stated: the name `docker://` has the form
`transport:rest` with transport `docker` and `rest = "//"`, yet with an
empty store (no local hit) `ResolveName` does not return one docker-tagged
candidate: the stripped destination is empty, so the transport stage yields
no result and resolution falls through to the docker-reference stage, whose
parser (`reference.ParseNormalizedNamed` rejects `docker://` with "invalid
reference format") makes `ResolveName` return an error. -/
theorem claim_C7_counterexample :
    goSplitN2 "docker://" = ["docker", "//"]
    ∧ ResolveName (fun _ => Except.error "invalid reference format") wStore
        (fun _ => none) ⟨false, [], fun _ => FindRegResult.notFound⟩ "docker://" =
      Except.error (BuildErr.parseName "docker://" "invalid reference format") := by
  exact ⟨rfl, rfl⟩

/-- Witness for claim C7's amended theorem: `docker://reg.io/lib/app` with
an empty store resolves to the single candidate `reg.io/lib/app` tagged
`docker`. -/
theorem claim_C7_witness :
    ResolveName (fun _ => Except.error "unused") wStore (fun _ => none)
        ⟨false, [], fun _ => FindRegResult.notFound⟩
        ("docker" ++ ":" ++ "//reg.io/lib/app") =
      Except.ok (["reg.io/lib/app"], "docker")
    ∧ "docker" ++ ":" ++ "//reg.io/lib/app" = "docker://reg.io/lib/app" := by
  constructor
  · have h := claim_C7_transport_amended (fun _ => Except.error "unused") wStore
      (fun _ => none) ⟨false, [], fun _ => FindRegResult.notFound⟩ "docker"
      "//reg.io/lib/app" (Or.inl rfl) rfl (by decide)
    rw [h]
    rfl
  · rfl

/-!
## Claim C10: the default path prefix and slash-bearing names
-/

/-- `filterMap` with pointwise-equal functions agrees. -/
theorem filterMapCongrOn {α β : Type} (f g : α → Option β) :
    ∀ l : List α, (∀ x ∈ l, f x = g x) → l.filterMap f = l.filterMap g := by
  intro l
  induction l with
  | nil => intro _; rfl
  | cons a l ih =>
    intro h
    have ha := h a (List.mem_cons_self a l)
    have hl := ih fun x hx => h x (List.mem_cons_of_mem a hx)
    rw [List.filterMap_cons, List.filterMap_cons, ha, hl]

/-- An empty middle element contributes nothing to a joined path. -/
theorem pathJoin_middle_empty (r name : String) :
    pathJoin [r, "", name] = pathJoin [r, name] := by
  have h : List.filter (fun e => decide (e ≠ "")) [r, "", name] =
      List.filter (fun e => decide (e ≠ "")) [r, name] := by
    simp [List.filter_cons]
  simp only [pathJoin]
  rw [h]

/-- Claim C10: the default-registry path prefix is inserted between the
registry and the name only when the name contains no `/`: for every name
containing a slash each registry candidate is the plain join
`registry/name` — also for registries with a configured prefix — while a
slash-free name with a configured prefix gets `registry/prefix/name`; and
under a slash-bearing name the whole fallback candidate list consists of
plain joins. -/
theorem claim_C10_path_prefix_slash (pm : String → Option String) (name : String) :
    (containsChar name '/' = true →
      ∀ r : String, registryCandidate pm name r = pathJoin [r, name])
    ∧ (∀ r pfx : String, pm r = some pfx → containsChar name '/' = false →
      registryCandidate pm name r = pathJoin [r, pfx, name])
    ∧ (containsChar name '/' = true → ∀ sc : RegistryConf,
      (tryResolveNameInRegistries pm sc name).1 =
        ("localhost" :: registriesFromConf sc).filterMap
          (fun registry => if registry = "" then none
            else some (pathJoin [registry, name]))) := by
  have h1 : containsChar name '/' = true →
      ∀ r : String, registryCandidate pm name r = pathJoin [r, name] := by
    intro hcon r
    rw [registryCandidate]
    cases hpm : pm r with
    | none => exact pathJoin_middle_empty r name
    | some pfx =>
      simp only [hcon, if_true]
      exact pathJoin_middle_empty r name
  refine ⟨h1, ?_, ?_⟩
  · intro r pfx hpm hcon
    rw [registryCandidate, hpm]
    simp only [hcon]
    rfl
  · intro hcon sc
    rw [tryResolveNameInRegistries]
    exact filterMapCongrOn _ _ _ fun r _ => by
      by_cases hr : r = ""
      · rw [if_pos hr, if_pos hr]
      · rw [if_neg hr, if_neg hr, h1 hcon r]

/-- Witness for claim C10: `lib/app` contains a slash, so `docker.io` —
whose configured prefix is `library` — contributes the plain join
`docker.io/lib/app`, while the slash-free `app` gets the prefix. -/
theorem claim_C10_witness :
    registryCandidate wPm "lib/app" "docker.io" = "docker.io/lib/app"
    ∧ registryCandidate wPm "app" "docker.io" = "docker.io/library/app" := by
  constructor
  · rw [(claim_C10_path_prefix_slash wPm "lib/app").1 (by decide) "docker.io"]
    rfl
  · rw [(claim_C10_path_prefix_slash wPm "app").2.1 "docker.io" "library" rfl (by decide)]
    rfl

/-- Witness for claim C1: a producer failing with "disk full" while the pipe
wrapper exists leaves the done flag set, the error text written, and the
error returned. -/
theorem claim_C1_witness :
    producerFinish (some ⟨"pipe", false, none⟩) (some "disk full") =
      { pipe := some ⟨"pipe", true, none⟩, pipeFileWrites := ["disk full"],
        ret := some "disk full" } := by
  have h := (claim_C1_producer_marks_done_and_writes_error ⟨"pipe", false, none⟩
    "disk full").1
  rw [h]
  rfl

/-- Witness for claim C3: a cancellation with cause "context deadline
exceeded" returns nil and logs the warning. -/
theorem claim_C3_witness :
    (supervisorSelect none (SupEvent.streamDone (some "context deadline exceeded"))).ret
      = none
    ∧ (supervisorSelect none
        (SupEvent.streamDone (some "context deadline exceeded"))).warnedCancel = true := by
  have h := claim_C3_cancellation_amended none (some "context deadline exceeded")
  exact ⟨h.1, h.2.mpr ⟨by decide, by decide⟩⟩
